import Mathlib

/-!
Verification of the coldy_lp authentication subsystem
(`app/blueprints/api/auth.py`, `app/utils/exceptions.py`, `config.py`).

The endpoint handlers of `auth.py` are embedded as pure Lean functions:
the SQLAlchemy-backed stores become explicit lists (`List TokenEntry` for
the `TokenBlacklist` table, `List User` for the user table), HTTP
responses become `(status, flat JSON object)` pairs, and the
nondeterministic inputs (freshly generated `jti`, clock) become explicit
parameters.

The repository files `app/utils/helpers.py` and `app/models.py` are not
part of the provided sources; the functions `auth.py` imports from them
(`is_token_revoked`, `revoke_token`, `unrevoke_token`,
`revoke_all_tokens`, `prune_database`, `add_token_to_database`,
`normalize_names`) and the model-level email-uniqueness constraint are
modelled from the specification (sections 4.1 to 4.3), each marked
`Modelled from the spec:` in its doc comment.

Strings are modelled as `List Char`; character classes of the two Python
regular expressions in `sign_up` are modelled at their ASCII meaning.
-/

/-- One row of the `TokenBlacklist` table (spec section 3, "Token Ledger
Entry"): `jti` primary key, token type, owning identity
(`User.public_id`), revoked flag, absolute expiry timestamp. -/
structure TokenEntry where
  jti : String
  token_type : String
  user_identity : String
  revoked : Bool
  expires : Nat
deriving DecidableEq, Repr

/-- The claims of a decoded JWT that the auth code inspects: the identity
claim (`public_id` of the owner) and the unique id claim `jti`
(spec section 6, "Token claims embedded at mint"). -/
structure DecodedToken where
  identity : String
  jti : String
  expires : Nat
deriving DecidableEq, Repr

/-- Modelled from the spec: `is_token_revoked` lives in
`app/utils/helpers.py`, which is not among the provided sources.
Spec section 4.2: extract `jti` from the decoded claims; look it up in the
Token Ledger; if absent, treat as revoked (fail-closed); otherwise return
the stored `revoked` flag. -/
def is_token_revoked (decoded : DecodedToken) (ledger : List TokenEntry) : Bool :=
  match ledger.find? (fun e => e.jti == decoded.jti) with
  | none => true
  | some e => e.revoked

/-- `check_if_token_revoked` (auth.py lines 31-33): the blacklist-loader
callback just delegates to `is_token_revoked`. -/
def check_if_token_revoked (decoded : DecodedToken) (ledger : List TokenEntry) : Bool :=
  is_token_revoked decoded ledger

/-- Modelled from the spec: the per-row effect of the ledger operation
`set_revoked(jti, value)` of spec section 4.1, restricted to the
caller-owned row as required by the ownership check of section 4.3. -/
def setRevoked (b : Bool) (jti : String) (ident : String) (e : TokenEntry) : TokenEntry :=
  if e.jti == jti && e.user_identity == ident then { e with revoked := b } else e

/-- Modelled from the spec: `revoke_token` lives in
`app/utils/helpers.py` (not among the provided sources). Spec section
4.3 `toggle`: verify the entry with this `jti` belongs to the caller,
then set its revoked flag to `true`; fail with `TokenNotFound` (here:
`none`) if the `jti` is absent or owned by another user. -/
def revoke_token (jti : String) (ident : String) (ledger : List TokenEntry) :
    Option (List TokenEntry) :=
  if ledger.any (fun e => e.jti == jti && e.user_identity == ident) then
    some (ledger.map (setRevoked true jti ident))
  else
    none

/-- Modelled from the spec: `unrevoke_token` lives in
`app/utils/helpers.py` (not among the provided sources). Spec section
4.3 `toggle` with `revoke = false`: same ownership check, sets the
revoked flag to `false`. -/
def unrevoke_token (jti : String) (ident : String) (ledger : List TokenEntry) :
    Option (List TokenEntry) :=
  if ledger.any (fun e => e.jti == jti && e.user_identity == ident) then
    some (ledger.map (setRevoked false jti ident))
  else
    none

/-- Modelled from the spec: `prune_database` lives in
`app/utils/helpers.py` (not among the provided sources). Spec section
4.1 `prune_expired(now)`: deletes every entry with `expires < now`,
regardless of revoked status. -/
def prune_database (now : Nat) (ledger : List TokenEntry) : List TokenEntry :=
  ledger.filter (fun e => !(e.expires < now))

/-- Modelled from the spec: `add_token_to_database` lives in
`app/utils/helpers.py` (not among the provided sources). Spec sections
4.1 `insert` and 4.3 `issue`: decode the minted token and insert a ledger
row carrying its `jti`, type, owning identity and expiry, with
`revoked = false`; a duplicate `jti` is a fatal integrity violation
(here: `none`). -/
def add_token_to_database (tok : DecodedToken) (ledger : List TokenEntry) :
    Option (List TokenEntry) :=
  if ledger.any (fun e => e.jti == tok.jti) then
    none
  else
    some (ledger ++ [{ jti := tok.jti, token_type := "access",
                       user_identity := tok.identity, revoked := false,
                       expires := tok.expires }])

/-- The per-row effect of the loop of `logout_user` (auth.py lines
187-189): a row of the caller with `revoked = False` gets its flag set
to `True`; every other row is untouched. -/
def revokeIfOwnedActive (ident : String) (e : TokenEntry) : TokenEntry :=
  if e.user_identity == ident && e.revoked == false then { e with revoked := true } else e

/-- The ledger effect of `logout_user` (auth.py lines 186-191): select
every row of the caller with `revoked = False` and set its flag to
`True`; rows of other users and already-revoked rows are untouched. -/
def logoutLedger (ident : String) (ledger : List TokenEntry) : List TokenEntry :=
  ledger.map (revokeIfOwnedActive ident)

/-- An HTTP response as the auth endpoints build them: a status code and
a flat JSON object of string fields. -/
abbrev Resp := Nat × List (String × String)

/-- `logout_user` (auth.py lines 180-192): requires a JSON request
(`raise APIException("JSON request only")`, status 400 by the
`APIException` default in `app/utils/exceptions.py`), then flips every
non-revoked row of the caller and answers 200. -/
def logout_user (is_json : Bool) (ident : String) (ledger : List TokenEntry) :
    Resp × List TokenEntry :=
  if !is_json then
    ((400, [("error", "JSON request only")]), ledger)
  else
    ((200, [("success", "user logged out")]), logoutLedger ident ledger)

/-- `modify_token` (auth.py lines 154-177): validates the `revoke` field
of the body (here `body? : Option Bool`, `none` meaning the field is
missing, not a boolean, or the body unreadable), then revokes or
unrevokes the named token for the caller; a `TokenNotFound` from either
helper is answered with the same 404 body. -/
def modify_token (token_id : String) (body? : Option Bool) (ident : String)
    (ledger : List TokenEntry) : Resp × List TokenEntry :=
  match body? with
  | none => ((400, [("error", "Missing revoke in body")]), ledger)
  | some revoke =>
    if revoke then
      match revoke_token token_id ident ledger with
      | some l2 => ((200, [("msg", "Token revoked")]), l2)
      | none => ((404, [("msg", "The specified token was not found")]), ledger)
    else
      match unrevoke_token token_id ident ledger with
      | some l2 => ((200, [("msg", "Token unrevoked")]), l2)
      | none => ((404, [("msg", "The specified token was not found")]), ledger)

/-- One row of the user table (spec section 3, "User").
`password_hash` is nullable: `none` marks a social-login-only account. -/
structure User where
  email : String
  password_hash : Option String
  fname : String
  lname : String
  public_id : String
deriving DecidableEq, Repr

/-- Modelled from the spec: `normalize_names` lives in
`app/utils/helpers.py` (not among the provided sources). Spec sections 3
and 6: names are "normalized (trim + canonical casing)". -/
def normalize_names (s : String) : String :=
  s.trim.capitalize

/-- ASCII reading of the `\w` class of the Python regexes in `sign_up`
(auth.py lines 52 and 54): letter, digit or underscore. -/
def isWordChar (c : Char) : Bool :=
  c.isAlphanum || c == '_'

/-- The `[\.-]` class of the email regex: dot or hyphen. -/
def isSepChar (c : Char) : Bool :=
  c == '.' || c == '-'

/-- No two adjacent separator characters. -/
def noAdjacentSep : List Char → Bool
  | [] => true
  | [_] => true
  | a :: b :: rest => !(isSepChar a && isSepChar b) && noAdjacentSep (b :: rest)

/-- Strip one final newline: in a Python regex without `re.MULTILINE`,
the `$` anchor matches at the end of the string and also just before a
newline that ends the string, and `.` never matches a newline, so a
pattern of the form `^...$` over newline-free classes matches `s` under
`re.search` exactly when it matches all of `stripFinalNewline s` and
that stripped string is newline-free. -/
def stripFinalNewline (s : List Char) : List Char :=
  match s.getLast? with
  | some c => if c == '\n' then s.dropLast else s
  | none => s

/-- Language of `\w+([\.-]?\w+)*`: by induction on the number of
repetitions of the group, these are exactly the nonempty strings over
word and separator characters that start and end with a word character
and never put two separators side by side (each `[\.-]?\w+` appends at
most one separator, always followed by a word run). -/
def localPartOk (s : List Char) : Bool :=
  !s.isEmpty &&
  s.all (fun c => isWordChar c || isSepChar c) &&
  (match s.head? with | some c => isWordChar c | none => false) &&
  (match s.getLast? with | some c => isWordChar c | none => false) &&
  noAdjacentSep s

/-- Language of `\w+([\.-]?\w+)*(\.\w{2,3})+`: a `localPartOk` prefix
followed by blocks of a dot and two or three word characters. Such a
string has the `localPartOk` shape overall, and its final maximal word
run is the `\w{2,3}` of the last block: length 2 or 3, preceded by a
dot. Conversely any `localPartOk`-shaped string whose final word run
has length 2 or 3 and is preceded by a dot splits as such a prefix plus
one final block (the prefix ends with the word character that, by
`noAdjacentSep`, sits before that dot). -/
def domainPartOk (s : List Char) : Bool :=
  localPartOk s &&
  (let run := s.reverse.takeWhile isWordChar
   (run.length == 2 || run.length == 3) &&
   (match s.reverse.dropWhile isWordChar with
    | c :: _ => c == '.'
    | [] => false))

/-- Split a list at the first occurrence of `c`: `some (l, r)` with the
input equal to `l ++ c :: r` and `c` not in `l`, or `none` when `c` does
not occur. -/
def splitAtFirst (c : Char) : List Char → Option (List Char × List Char)
  | [] => none
  | x :: xs =>
    if x == c then some ([], xs)
    else match splitAtFirst c xs with
         | some (l, r) => some (x :: l, r)
         | none => none

/-- Acceptance of the email regex of `sign_up` (auth.py line 52),
`^\w+([\.-]?\w+)*@\w+([\.-]?\w+)*(\.\w{2,3})+$`, under `re.search`:
anchored at both ends (modulo one final newline admitted by `$`), it
splits the string at the `@` — which can occur only once, since neither
side admits it (a second `@` in the domain part fails its alphabet
check) — into a local part and a domain part. -/
def eregAccepts (s : List Char) : Bool :=
  match splitAtFirst '@' (stripFinalNewline s) with
  | some (l, d) => localPartOk l && domainPartOk d
  | none => false

/-- Acceptance of the password regex of `sign_up` (auth.py line 54),
`^.*(?=.{8,})(?=.*\d)(?=.*[a-z])(?=.*[A-Z]).*$`, under `re.search`:
`^` pins the match to position 0 and `.` never crosses a newline, so a
match picks a split point `k` inside the first line with at least 8
non-newline characters after `k`, a digit, a lowercase and an uppercase
letter each after `k` within the first line, and the trailing `.*$`
reaching the end of the string (or its final newline) without crossing
a newline. The conditions are weakest at `k = 0`, so the regex matches
exactly when, after stripping one final newline, the string is
newline-free, at least 8 characters long, and contains a digit, a
lowercase and an uppercase letter. -/
def pregAccepts (s : List Char) : Bool :=
  let t := stripFinalNewline s
  t.all (fun c => !(c == '\n')) &&
  decide (8 ≤ t.length) &&
  t.any Char.isDigit && t.any Char.isLower && t.any Char.isUpper

/-- The JSON body of a sign-up request; `none` fields are absent keys. -/
structure SignUpBody where
  email : Option String
  password : Option String
  fname : Option String
  lname : Option String
deriving Repr

/-- `sign_up` (auth.py lines 35-95). The request is `is_json` plus an
optional parsed body; `hash` models the password hashing of the `User`
constructor (in `app/models.py`, not among the provided sources) and
`newPublicId` the generated `uuid4`. The email-uniqueness constraint
and the `IntegrityError`-rollback of lines 89-93 are modelled from the
spec (section 3 invariant, section 7 "No partial application"): a
duplicate email makes the commit fail and the rollback leaves the
store unchanged; the handler answers 400
"user already created - login instead". -/
def sign_up (is_json : Bool) (body? : Option SignUpBody) (hash : String → String)
    (newPublicId : String) (store : List User) : Resp × List User :=
  if !is_json then ((400, [("error", "json request only")]), store)
  else match body? with
  | none => ((400, [("error", "not body in request")]), store)
  | some body =>
    match body.email with
    | none => ((400, [("error", "email not found in request")]), store)
    | some email =>
      if !eregAccepts email.data then ((400, [("error", "invalid email format")]), store)
      else match body.password with
      | none => ((400, [("error", "password not found in request")]), store)
      | some pw =>
        if !pregAccepts pw.data then ((400, [("error", "insecure password")]), store)
        else match body.fname with
        | none => ((400, [("error", "fname not found in request")]), store)
        | some fn =>
          match body.lname with
          | none => ((400, [("error", "lname not found in request")]), store)
          | some ln =>
            if store.any (fun u => u.email == email) then
              ((400, [("error", "user already created - login instead")]), store)
            else
              ((201, [("success", "created")]),
               store ++ [{ email := email, password_hash := some (hash pw),
                           fname := normalize_names fn, lname := normalize_names ln,
                           public_id := newPublicId }])

/-- The JSON body of a login request; `none` fields are absent keys. -/
structure LoginBody where
  email : Option String
  password : Option String
deriving Repr

/-- Outcome of `login`: an error with status and message, or a 200 with
the minted token (given by its claims) and the matched user. -/
inductive LoginResp
  | err : Nat → String → LoginResp
  | ok : DecodedToken → User → LoginResp
deriving DecidableEq, Repr

/-- `login` (auth.py lines 98-142). `chk` models werkzeug's
`check_password_hash` (an external collaborator, spec section 1),
`freshJti` the `jti` generated inside `create_access_token`, and `exp`
the expiry computed from `JWT_ACCESS_TOKEN_EXPIRES` (config.py).
The minted token is represented by its claims (identity = the user's
`public_id`, `jti`, expiry); `add_token_to_database` inserts its ledger
row before the handler returns. A duplicate `jti` on insert is the
fatal integrity violation of spec section 7, surfaced as a 500 here. -/
def login (is_json : Bool) (body? : Option LoginBody)
    (chk : String → String → Bool) (freshJti : String) (exp : Nat)
    (users : List User) (ledger : List TokenEntry) :
    LoginResp × List TokenEntry :=
  if !is_json then (.err 400 "not json request", ledger)
  else match body? with
  | none => (.err 400 "not json request", ledger)
  | some body =>
    match body.email with
    | none => (.err 400 "misising email", ledger)
    | some email =>
      match body.password with
      | none => (.err 400 "missing password", ledger)
      | some pw =>
        match users.find? (fun u => u.email == email) with
        | none => (.err 404 "user not found", ledger)
        | some user =>
          match user.password_hash with
          | none => (.err 400 "user logged with social login", ledger)
          | some h =>
            if !(chk h pw) then (.err 404 "wrong password", ledger)
            else
              let tok : DecodedToken := ⟨user.public_id, freshJti, exp⟩
              match add_token_to_database tok ledger with
              | some l2 => (.ok tok user, l2)
              | none => (.err 500 "duplicate jti on insert", ledger)

/-! ## Helper lemmas -/

theorem setRevoked_jti (b : Bool) (jti ident : String) (e : TokenEntry) :
    (setRevoked b jti ident e).jti = e.jti := by
  unfold setRevoked; split <;> rfl

theorem setRevoked_revoked_of_revoked (jti ident : String) (e : TokenEntry)
    (h : e.revoked = true) : (setRevoked true jti ident e).revoked = true := by
  unfold setRevoked; split <;> simp [h]

theorem revokeIfOwnedActive_jti (ident : String) (e : TokenEntry) :
    (revokeIfOwnedActive ident e).jti = e.jti := by
  unfold revokeIfOwnedActive; split <;> rfl

theorem revokeIfOwnedActive_user (ident : String) (e : TokenEntry) :
    (revokeIfOwnedActive ident e).user_identity = e.user_identity := by
  unfold revokeIfOwnedActive; split <;> rfl

theorem revokeIfOwnedActive_of_revoked (ident : String) (e : TokenEntry)
    (h : e.revoked = true) : revokeIfOwnedActive ident e = e := by
  unfold revokeIfOwnedActive; simp [h]

theorem revokeIfOwnedActive_of_unowned (ident : String) (e : TokenEntry)
    (h : ¬ e.user_identity = ident) : revokeIfOwnedActive ident e = e := by
  unfold revokeIfOwnedActive; simp [h]

theorem revokeIfOwnedActive_revoked_of_owned (ident : String) (e : TokenEntry)
    (h : e.user_identity = ident) : (revokeIfOwnedActive ident e).revoked = true := by
  unfold revokeIfOwnedActive; cases hr : e.revoked <;> simp [h, hr]

theorem revokeIfOwnedActive_idem (ident : String) (e : TokenEntry) :
    revokeIfOwnedActive ident (revokeIfOwnedActive ident e) = revokeIfOwnedActive ident e := by
  by_cases h : e.user_identity = ident
  · cases hr : e.revoked <;> simp [revokeIfOwnedActive, h, hr]
  · simp [revokeIfOwnedActive, h]

theorem logoutLedger_owned_revoked (ident : String) (l : List TokenEntry) :
    ∀ e ∈ logoutLedger ident l, e.user_identity = ident → e.revoked = true := by
  intro e he hid
  rw [logoutLedger, List.mem_map] at he
  obtain ⟨a, _, rfl⟩ := he
  rw [revokeIfOwnedActive_user] at hid
  exact revokeIfOwnedActive_revoked_of_owned ident a hid

theorem logoutLedger_mem_of_revoked (ident : String) (l : List TokenEntry) :
    ∀ e ∈ l, e.revoked = true → e ∈ logoutLedger ident l := by
  intro e he h
  rw [logoutLedger]
  exact List.mem_map.mpr ⟨e, he, revokeIfOwnedActive_of_revoked ident e h⟩

theorem logoutLedger_mem_of_unowned (ident : String) (l : List TokenEntry) :
    ∀ e ∈ l, ¬ e.user_identity = ident → e ∈ logoutLedger ident l := by
  intro e he h
  rw [logoutLedger]
  exact List.mem_map.mpr ⟨e, he, revokeIfOwnedActive_of_unowned ident e h⟩

theorem logoutLedger_idem (ident : String) (l : List TokenEntry) :
    logoutLedger ident (logoutLedger ident l) = logoutLedger ident l := by
  rw [logoutLedger, logoutLedger, List.map_map]
  exact List.map_congr_left (fun a _ => revokeIfOwnedActive_idem ident a)

/-! ## Claim theorems -/

/-- C1: for every decoded token, `check_if_token_revoked` returns `true`
when the token's `jti` is absent from the Token Ledger (fail-closed), and
otherwise returns exactly the stored `revoked` flag of the ledger entry
with that `jti` (the entry being unique, per the primary-key invariant of
spec section 3). -/
theorem C1_revocation_check_fail_closed (d : DecodedToken) (ledger : List TokenEntry) :
    ((∀ e ∈ ledger, e.jti ≠ d.jti) → check_if_token_revoked d ledger = true) ∧
    (∀ e ∈ ledger, e.jti = d.jti → (∀ e2 ∈ ledger, e2.jti = d.jti → e2 = e) →
      check_if_token_revoked d ledger = e.revoked) := by
  constructor
  · intro h
    have hnone : ledger.find? (fun e => e.jti == d.jti) = none := by
      rw [List.find?_eq_none]
      intro x hx
      simp [h x hx]
    simp [check_if_token_revoked, is_token_revoked, hnone]
  · intro e he hj huniq
    cases hfind : ledger.find? (fun e => e.jti == d.jti) with
    | none =>
      rw [List.find?_eq_none] at hfind
      exact absurd (by simp [hj]) (hfind e he)
    | some e2 =>
      have h1 : e2.jti = d.jti := by
        have := List.find?_some hfind
        simpa using this
      have h2 : e2 ∈ ledger := List.mem_of_find?_eq_some hfind
      have : e2 = e := huniq e2 h2 h1
      subst this
      simp [check_if_token_revoked, is_token_revoked, hfind]

/-- Witness for C1 at concrete inputs: the check is fail-closed on the
empty ledger, and returns the stored flag on a singleton ledger. -/
theorem C1_witness :
    check_if_token_revoked ⟨"u", "j", 5⟩ [] = true ∧
    check_if_token_revoked ⟨"u", "j", 5⟩ [⟨"j", "access", "u", true, 9⟩] = true := by
  constructor
  · exact (C1_revocation_check_fail_closed ⟨"u", "j", 5⟩ []).1 (by simp)
  · exact (C1_revocation_check_fail_closed ⟨"u", "j", 5⟩
      [⟨"j", "access", "u", true, 9⟩]).2 ⟨"j", "access", "u", true, 9⟩ (by simp) rfl
      (by intro e2 h2 hj; rw [List.mem_singleton] at h2; exact h2)

/-- C2: an authenticated `PUT /api/auth/token/(jti)` on a `jti` that is
absent from the ledger, or present but owned by another user, answers
404 with the body `msg: The specified token was not found` — the same
constant response for both causes and for both `revoke` values, so no
output distinguishes absent from owned-by-another-user. -/
theorem C2_toggle_absent_and_unowned_identical (token_id ident : String) (revoke : Bool)
    (ledger : List TokenEntry)
    (h : ∀ e ∈ ledger, ¬(e.jti = token_id ∧ e.user_identity = ident)) :
    modify_token token_id (some revoke) ident ledger
      = ((404, [("msg", "The specified token was not found")]), ledger) := by
  have hany : ledger.any (fun e => e.jti == token_id && e.user_identity == ident) = false := by
    rw [List.any_eq_false]
    intro e he
    simp only [Bool.and_eq_true, beq_iff_eq]
    exact h e he
  cases revoke <;> simp [modify_token, revoke_token, unrevoke_token, hany]

/-- Witness for C2 at concrete inputs: a ledger holding only another
user's token answers the constant 404 body, identically for a `jti`
owned by that other user and for a truly absent `jti`, and for both
`revoke` values. -/
theorem C2_witness :
    modify_token "j" (some true) "A" [⟨"j", "access", "B", false, 9⟩]
      = ((404, [("msg", "The specified token was not found")]), [⟨"j", "access", "B", false, 9⟩]) ∧
    modify_token "ghost" (some false) "A" [⟨"j", "access", "B", false, 9⟩]
      = ((404, [("msg", "The specified token was not found")]), [⟨"j", "access", "B", false, 9⟩]) := by
  constructor
  · exact C2_toggle_absent_and_unowned_identical "j" "A" true [⟨"j", "access", "B", false, 9⟩]
      (by intro e he; rw [List.mem_singleton] at he; subst he; decide)
  · exact C2_toggle_absent_and_unowned_identical "ghost" "A" false [⟨"j", "access", "B", false, 9⟩]
      (by intro e he; rw [List.mem_singleton] at he; subst he; decide)

/-- Between two ledger states, the `revoked` flag of the entry carrying
any given `jti` never falls back from `true` to `false`. -/
def preservesRevoked (l l2 : List TokenEntry) : Prop :=
  ∀ e ∈ l, e.revoked = true → ∀ e2 ∈ l2, e2.jti = e.jti → e2.revoked = true

/-- C3: under the `jti`-uniqueness invariant of the ledger (spec section
3, `jti` is the primary key), every operation except the single-token
unrevoke path only moves the `revoked` flag from `false` to `true`: the
bulk logout-everywhere ledger effect, a successful `revoke_token`, a
successful token insert, and pruning all preserve `revoked = true` on
every surviving entry. -/
theorem C3_revoked_monotone_except_unrevoke (ident jti : String) (now : Nat)
    (tok : DecodedToken) (ledger la lb : List TokenEntry)
    (hU : ∀ e ∈ ledger, ∀ e2 ∈ ledger, e.jti = e2.jti → e = e2) :
    preservesRevoked ledger (logoutLedger ident ledger) ∧
    (revoke_token jti ident ledger = some la → preservesRevoked ledger la) ∧
    (add_token_to_database tok ledger = some lb → preservesRevoked ledger lb) ∧
    preservesRevoked ledger (prune_database now ledger) := by
  refine ⟨?_, ?_, ?_, ?_⟩
  · intro e he hrev e2 he2 hjti
    rw [logoutLedger, List.mem_map] at he2
    obtain ⟨a, ha, rfl⟩ := he2
    rw [revokeIfOwnedActive_jti] at hjti
    have : a = e := hU a ha e he hjti
    subst this
    rw [revokeIfOwnedActive_of_revoked ident a hrev]
    exact hrev
  · intro heq e he hrev e2 he2 hjti
    rw [revoke_token] at heq
    split at heq
    · cases heq
      rw [List.mem_map] at he2
      obtain ⟨a, ha, rfl⟩ := he2
      rw [setRevoked_jti] at hjti
      have : a = e := hU a ha e he hjti
      subst this
      exact setRevoked_revoked_of_revoked jti ident a hrev
    · cases heq
  · intro heq e he hrev e2 he2 hjti
    rw [add_token_to_database] at heq
    split at heq
    · cases heq
    · rename_i hany
      cases heq
      rw [List.mem_append] at he2
      cases he2 with
      | inl h2 => rw [hU e2 h2 e he hjti]; exact hrev
      | inr h2 =>
        rw [List.mem_singleton] at h2
        subst h2
        rw [Bool.not_eq_true, List.any_eq_false] at hany
        exact absurd (by simp [← hjti]) (hany e he)
  · intro e he hrev e2 he2 hjti
    rw [prune_database, List.mem_filter] at he2
    rw [hU e2 he2.1 e he hjti]
    exact hrev

/-- Witness for C3 at concrete inputs: on a two-token ledger with one
already-revoked entry, both the logout-everywhere effect and a
successful single-token revoke preserve the revoked flag. -/
theorem C3_witness :
    preservesRevoked
      [⟨"j1", "access", "u", true, 9⟩, ⟨"j2", "access", "u", false, 9⟩]
      (logoutLedger "u" [⟨"j1", "access", "u", true, 9⟩, ⟨"j2", "access", "u", false, 9⟩]) ∧
    preservesRevoked
      [⟨"j1", "access", "u", true, 9⟩, ⟨"j2", "access", "u", false, 9⟩]
      [⟨"j1", "access", "u", true, 9⟩, ⟨"j2", "access", "u", true, 9⟩] := by
  have hU : ∀ e ∈ [(⟨"j1", "access", "u", true, 9⟩ : TokenEntry), ⟨"j2", "access", "u", false, 9⟩],
      ∀ e2 ∈ [(⟨"j1", "access", "u", true, 9⟩ : TokenEntry), ⟨"j2", "access", "u", false, 9⟩],
      e.jti = e2.jti → e = e2 := by
    intro e he e2 he2
    fin_cases he <;> fin_cases he2 <;> decide
  have h := C3_revoked_monotone_except_unrevoke "u" "j2" 0 ⟨"u", "x", 0⟩
    [⟨"j1", "access", "u", true, 9⟩, ⟨"j2", "access", "u", false, 9⟩]
    [⟨"j1", "access", "u", true, 9⟩, ⟨"j2", "access", "u", true, 9⟩]
    [] hU
  exact ⟨h.1, h.2.1 (by decide)⟩

/-- C4: the ledger effect of logout-everywhere revokes every entry of
the caller (in particular every currently active one), keeps
already-revoked entries and other users' entries as they are, and is
idempotent — an immediately repeated call (also through the endpoint,
which demands a JSON request) changes zero rows. -/
theorem C4_logout_everywhere_idempotent (ident : String) (ledger : List TokenEntry) :
    (∀ e ∈ logoutLedger ident ledger, e.user_identity = ident → e.revoked = true) ∧
    (∀ e ∈ ledger, e.revoked = true → e ∈ logoutLedger ident ledger) ∧
    (∀ e ∈ ledger, ¬ e.user_identity = ident → e ∈ logoutLedger ident ledger) ∧
    logoutLedger ident (logoutLedger ident ledger) = logoutLedger ident ledger ∧
    logout_user true ident (logoutLedger ident ledger)
      = ((200, [("success", "user logged out")]), logoutLedger ident ledger) := by
  refine ⟨logoutLedger_owned_revoked ident ledger, logoutLedger_mem_of_revoked ident ledger,
    logoutLedger_mem_of_unowned ident ledger, logoutLedger_idem ident ledger, ?_⟩
  simp [logout_user, logoutLedger_idem]

/-- Witness for C4 at concrete inputs: after logout-everywhere on a
one-active-token ledger, the revoked copy of the entry is in the result
and its flag is `true`. -/
theorem C4_witness :
    (⟨"j1", "access", "u", true, 9⟩ : TokenEntry)
        ∈ logoutLedger "u" [⟨"j1", "access", "u", false, 9⟩] ∧
    (⟨"j1", "access", "u", true, 9⟩ : TokenEntry).revoked = true :=
  ⟨by decide,
   (C4_logout_everywhere_idempotent "u" [⟨"j1", "access", "u", false, 9⟩]).1 _ (by decide) rfl⟩

/-- Counterexample to C5: a logout request carrying a valid token but no
request body (hence not a JSON request) is answered 400
`error: JSON request only` by auth.py line 183-184, not 200 — a failure
outcome beyond the 401 the claim allows. -/
theorem C5_counterexample :
    logout_user false "u" [] = ((400, [("error", "JSON request only")]), []) ∧
    (400 : Nat) ≠ 200 :=
  ⟨rfl, by decide⟩

/-- C5 as amended: a logout request that does carry a JSON body is
answered 200 `success: user logged out` with every entry of the caller
revoked; a request without a JSON body is answered 400
`error: JSON request only` and leaves the ledger untouched (401 for a
missing or invalid bearer token is produced by the framework before the
handler runs). -/
theorem C5_logout_response_amended (ident : String) (ledger : List TokenEntry) :
    (logout_user true ident ledger).1 = (200, [("success", "user logged out")]) ∧
    (∀ e ∈ (logout_user true ident ledger).2, e.user_identity = ident → e.revoked = true) ∧
    logout_user false ident ledger = ((400, [("error", "JSON request only")]), ledger) := by
  refine ⟨rfl, ?_, rfl⟩
  simpa [logout_user] using logoutLedger_owned_revoked ident ledger

/-- Witness for the amended C5 at concrete inputs. -/
theorem C5_witness :
    (⟨"j1", "access", "u", true, 9⟩ : TokenEntry)
        ∈ (logout_user true "u" [⟨"j1", "access", "u", false, 9⟩]).2 ∧
    (⟨"j1", "access", "u", true, 9⟩ : TokenEntry).revoked = true :=
  ⟨by decide,
   (C5_logout_response_amended "u" [⟨"j1", "access", "u", false, 9⟩]).2.1 _ (by decide) rfl⟩

/-- C6: a valid sign-up payload on a store not yet holding its email
creates exactly one user row (the store becomes `store ++ [newUser]`),
and a second sign-up with the same email fails with the 400
duplicate-entity error of auth.py line 93, leaving the store exactly as
it was after the first call (the failed write is fully rolled back). -/
theorem C6_signup_once_then_duplicate_rolls_back
    (body : SignUpBody) (email pw fn ln : String)
    (hash : String → String) (pid1 pid2 : String) (store : List User)
    (he : body.email = some email) (hp : body.password = some pw)
    (hf : body.fname = some fn) (hl : body.lname = some ln)
    (hemail : eregAccepts email.data = true) (hpw : pregAccepts pw.data = true)
    (hfresh : ∀ u ∈ store, u.email ≠ email) :
    ∃ newUser : User,
      sign_up true (some body) hash pid1 store
        = ((201, [("success", "created")]), store ++ [newUser]) ∧
      newUser.email = email ∧
      sign_up true (some body) hash pid2 (store ++ [newUser])
        = ((400, [("error", "user already created - login instead")]), store ++ [newUser]) := by
  have hany1 : store.any (fun u => u.email == email) = false := by
    rw [List.any_eq_false]
    intro u hu
    simp [hfresh u hu]
  refine ⟨⟨email, some (hash pw), normalize_names fn, normalize_names ln, pid1⟩, ?_, rfl, ?_⟩
  · simp [sign_up, he, hp, hf, hl, hemail, hpw, hany1]
  · have hany2 : (store ++ [(⟨email, some (hash pw), normalize_names fn,
        normalize_names ln, pid1⟩ : User)]).any (fun u => u.email == email) = true := by
      simp [List.any_append]
    simp [sign_up, he, hp, hf, hl, hemail, hpw, hany2]

/-- Witness for C6 at concrete inputs: signing up `a@b.com` on the empty
store adds one row; repeating it fails 400 and changes nothing. -/
theorem C6_witness :
    ∃ newUser : User,
      sign_up true (some ⟨some "a@b.com", some "Abcdef12", some "jo", some "doe"⟩)
          (fun s => s) "p1" []
        = ((201, [("success", "created")]), [] ++ [newUser]) ∧
      newUser.email = "a@b.com" ∧
      sign_up true (some ⟨some "a@b.com", some "Abcdef12", some "jo", some "doe"⟩)
          (fun s => s) "p2" ([] ++ [newUser])
        = ((400, [("error", "user already created - login instead")]), [] ++ [newUser]) :=
  C6_signup_once_then_duplicate_rolls_back
    ⟨some "a@b.com", some "Abcdef12", some "jo", some "doe"⟩
    "a@b.com" "Abcdef12" "jo" "doe" (fun s => s) "p1" "p2" []
    rfl rfl rfl rfl (by decide) (by decide) (by intro u hu; simp at hu)

/-- C7: for a JSON login request carrying email and password — if no
user has that email the response is 404 `user not found`; if the matched
user's password hash is null (social-login-only) it is 400; if the hash
verification fails it is 404 `wrong password`; otherwise the response
carries an access token whose identity claim is the user's `public_id`,
and the ledger row for that token (same `jti`, owner, expiry, not
revoked) is inserted before the token is returned. -/
theorem C7_login_branches (body : LoginBody) (email pw : String)
    (chk : String → String → Bool) (jti : String) (exp : Nat)
    (users : List User) (ledger : List TokenEntry)
    (he : body.email = some email) (hp : body.password = some pw) :
    ((∀ u ∈ users, u.email ≠ email) →
      login true (some body) chk jti exp users ledger
        = (.err 404 "user not found", ledger)) ∧
    (∀ user, users.find? (fun u => u.email == email) = some user →
      (user.password_hash = none →
        login true (some body) chk jti exp users ledger
          = (.err 400 "user logged with social login", ledger)) ∧
      (∀ h, user.password_hash = some h →
        (chk h pw = false →
          login true (some body) chk jti exp users ledger
            = (.err 404 "wrong password", ledger)) ∧
        (chk h pw = true → (∀ e ∈ ledger, e.jti ≠ jti) →
          login true (some body) chk jti exp users ledger
            = (.ok ⟨user.public_id, jti, exp⟩ user,
               ledger ++ [⟨jti, "access", user.public_id, false, exp⟩])))) := by
  constructor
  · intro hnone
    have hfind : users.find? (fun u => u.email == email) = none := by
      rw [List.find?_eq_none]
      intro u hu
      simp [hnone u hu]
    simp [login, he, hp, hfind]
  · intro user hfound
    constructor
    · intro hnull
      simp [login, he, hp, hfound, hnull]
    · intro h hhash
      constructor
      · intro hchk
        simp [login, he, hp, hfound, hhash, hchk]
      · intro hchk hfresh
        have hanyf : ledger.any (fun e => e.jti == jti) = false := by
          rw [List.any_eq_false]
          intro e hee
          simp [hfresh e hee]
        simp [login, he, hp, hfound, hhash, hchk, add_token_to_database, hanyf]

/-- Witness for C7 at concrete inputs: the user-not-found branch on an
empty user store, and the success branch — the minted token's identity
claim is the user's `public_id` and its ledger row is appended. -/
theorem C7_witness :
    login true (some ⟨some "a@b.com", some "Abcdef12"⟩) (fun h p => h == p) "J" 9 [] []
      = (.err 404 "user not found", []) ∧
    login true (some ⟨some "a@b.com", some "Abcdef12"⟩) (fun h p => h == p) "J" 9
        [⟨"a@b.com", some "Abcdef12", "Jo", "Doe", "PID"⟩] []
      = (.ok ⟨"PID", "J", 9⟩ ⟨"a@b.com", some "Abcdef12", "Jo", "Doe", "PID"⟩,
         [⟨"J", "access", "PID", false, 9⟩]) := by
  constructor
  · exact (C7_login_branches ⟨some "a@b.com", some "Abcdef12"⟩ "a@b.com" "Abcdef12"
      (fun h p => h == p) "J" 9 [] [] rfl rfl).1 (by intro u hu; simp at hu)
  · exact (((C7_login_branches ⟨some "a@b.com", some "Abcdef12"⟩ "a@b.com" "Abcdef12"
      (fun h p => h == p) "J" 9 [⟨"a@b.com", some "Abcdef12", "Jo", "Doe", "PID"⟩] []
      rfl rfl).2 ⟨"a@b.com", some "Abcdef12", "Jo", "Doe", "PID"⟩ (by decide)).2
      "Abcdef12" rfl).2 (by decide) (by intro e hee; simp at hee)

theorem stripFinalNewline_of_no_newline (s : List Char) (h : ∀ c ∈ s, c ≠ '\n') :
    stripFinalNewline s = s := by
  unfold stripFinalNewline
  cases hl : s.getLast? with
  | none => rfl
  | some c =>
    have hc : c ∈ s := List.mem_of_getLast?_eq_some hl
    simp [h c hc]

/-- Counterexample to C8: the eight-character password built from
`Aa1bcde` plus a newline contains a digit, a lowercase and an uppercase
letter, yet the password regex of auth.py line 54 rejects it (its dot
classes never cross a newline), so sign-up answers 400
`insecure password` where the claim demands acceptance. -/
theorem C8_counterexample :
    pregAccepts "Aa1bcde\n".data = false ∧
    "Aa1bcde\n".data.length = 8 ∧
    "Aa1bcde\n".data.any Char.isDigit = true ∧
    "Aa1bcde\n".data.any Char.isLower = true ∧
    "Aa1bcde\n".data.any Char.isUpper = true ∧
    sign_up true (some ⟨some "a@b.com", some "Aa1bcde\n", some "jo", some "doe"⟩)
        (fun s => s) "p1" []
      = ((400, [("error", "insecure password")]), []) := by
  refine ⟨by decide, by decide, by decide, by decide, by decide, by decide⟩

/-- C8 as amended: for a newline-free password the regex of auth.py line
54 accepts exactly when the password has at least 8 characters and
contains at least one digit, one lowercase and one uppercase letter; and
whenever the regex rejects, sign-up fails 400 `insecure password` with
the store untouched (before any store write). A password containing a
newline can satisfy the length and character-class conditions and still
be rejected. -/
theorem C8_password_rule_amended (pw : String) (body : SignUpBody) (email : String)
    (hash : String → String) (pid : String) (store : List User)
    (hnl : ∀ c ∈ pw.data, c ≠ '\n')
    (he : body.email = some email) (hbpw : body.password = some pw)
    (hemail : eregAccepts email.data = true) :
    (pregAccepts pw.data
      = (decide (8 ≤ pw.data.length) && pw.data.any Char.isDigit
         && pw.data.any Char.isLower && pw.data.any Char.isUpper)) ∧
    (pregAccepts pw.data = false →
      sign_up true (some body) hash pid store
        = ((400, [("error", "insecure password")]), store)) := by
  constructor
  · have hs := stripFinalNewline_of_no_newline pw.data hnl
    have hall : pw.data.all (fun c => !(c == '\n')) = true := by
      rw [List.all_eq_true]
      intro c hc
      simp [hnl c hc]
    simp [pregAccepts, hs, hall, Bool.and_assoc]
  · intro hfail
    simp [sign_up, he, hbpw, hemail, hfail]

/-- Witness for the amended C8 at concrete inputs: the seven-character
password `Abcdef1` fails the length condition and sign-up rejects it
400 with the store unchanged. -/
theorem C8_witness :
    (pregAccepts "Abcdef1".data
      = (decide (8 ≤ "Abcdef1".data.length) && "Abcdef1".data.any Char.isDigit
         && "Abcdef1".data.any Char.isLower && "Abcdef1".data.any Char.isUpper)) ∧
    sign_up true (some ⟨some "a@b.com", some "Abcdef1", some "jo", some "doe"⟩)
        (fun s => s) "p1" []
      = ((400, [("error", "insecure password")]), []) := by
  have h := C8_password_rule_amended "Abcdef1"
    ⟨some "a@b.com", some "Abcdef1", some "jo", some "doe"⟩ "a@b.com"
    (fun s => s) "p1" [] (by decide) rfl rfl (by decide)
  exact ⟨h.1, h.2 (by decide)⟩

/-- C9: pruning at timestamp `now` deletes exactly the entries with
`expires < now`, regardless of their revoked status: every expired entry
is gone, every entry with `expires >= now` (revoked or not) is retained,
and nothing new appears. -/
theorem C9_prune_exactly_expired (now : Nat) (ledger : List TokenEntry) :
    (∀ e ∈ ledger, e.expires < now → e ∉ prune_database now ledger) ∧
    (∀ e ∈ ledger, now ≤ e.expires → e ∈ prune_database now ledger) ∧
    (∀ e ∈ prune_database now ledger, e ∈ ledger ∧ now ≤ e.expires) := by
  refine ⟨?_, ?_, ?_⟩
  · intro e _ hexp hmem
    rw [prune_database, List.mem_filter] at hmem
    exact absurd hexp (by simpa using hmem.2)
  · intro e he hexp
    rw [prune_database, List.mem_filter]
    exact ⟨he, by simp [Nat.not_lt.mpr hexp]⟩
  · intro e hmem
    rw [prune_database, List.mem_filter] at hmem
    exact ⟨hmem.1, by simpa [Nat.not_lt] using hmem.2⟩

/-- Witness for C9 at concrete inputs: at `now = 7`, an entry expiring
at 5 is deleted while a revoked entry expiring at 10 is retained. -/
theorem C9_witness :
    (⟨"j1", "access", "u", false, 5⟩ : TokenEntry)
        ∉ prune_database 7 [⟨"j1", "access", "u", false, 5⟩, ⟨"j3", "access", "u", true, 10⟩] ∧
    (⟨"j3", "access", "u", true, 10⟩ : TokenEntry)
        ∈ prune_database 7 [⟨"j1", "access", "u", false, 5⟩, ⟨"j3", "access", "u", true, 10⟩] :=
  ⟨(C9_prune_exactly_expired 7 [⟨"j1", "access", "u", false, 5⟩, ⟨"j3", "access", "u", true, 10⟩]).1
      _ (by decide) (by decide),
   (C9_prune_exactly_expired 7 [⟨"j1", "access", "u", false, 5⟩, ⟨"j3", "access", "u", true, 10⟩]).2.1
      _ (by decide) (by decide)⟩

/-! ## The shape of accepted email addresses (for C10) -/

/-- The final dot-separated label of a string: everything after the last
dot (the whole string when no dot occurs). -/
def finalLabel (s : List Char) : List Char :=
  (s.reverse.takeWhile (fun c => !(c == '.'))).reverse

theorem takeWhile_append_cons (p : Char → Bool) (a : List Char) (c : Char) (b : List Char)
    (ha : ∀ x ∈ a, p x = true) (hc : p c = false) :
    (a ++ c :: b).takeWhile p = a := by
  induction a with
  | nil => simp [List.takeWhile_cons, hc]
  | cons x xs ih =>
    have hx : p x = true := ha x (List.mem_cons_self x xs)
    simp [List.takeWhile_cons, hx, ih (fun y hy => ha y (List.mem_cons_of_mem x hy))]

theorem splitAtFirst_eq (c : Char) (s l r : List Char)
    (h : splitAtFirst c s = some (l, r)) : s = l ++ c :: r := by
  induction s generalizing l r with
  | nil => rw [splitAtFirst] at h; cases h
  | cons x xs ih =>
    rw [splitAtFirst] at h
    by_cases hx : x == c
    · rw [if_pos hx] at h
      cases h
      have : x = c := by simpa using hx
      subst this
      rfl
    · rw [if_neg hx] at h
      cases hsp : splitAtFirst c xs with
      | none => rw [hsp] at h; cases h
      | some pr =>
        obtain ⟨l1, r1⟩ := pr
        rw [hsp] at h
        simp only [Option.some.injEq, Prod.mk.injEq] at h
        obtain ⟨rfl, rfl⟩ := h
        rw [List.cons_append, ih l1 _ hsp]

theorem ne_dot_of_isWordChar (x : Char) (h : isWordChar x = true) : ¬ x = '.' := by
  intro h2
  subst h2
  exact absurd h (by decide)

theorem domainPartOk_ends_dot_word (d : List Char) (h : domainPartOk d = true) :
    ∃ u w, d = u ++ '.' :: w ∧ (∀ x ∈ w, isWordChar x = true)
      ∧ (w.length = 2 ∨ w.length = 3) := by
  rw [domainPartOk] at h
  simp only [Bool.and_eq_true] at h
  obtain ⟨-, hlen, hdot⟩ := h
  cases hdw : d.reverse.dropWhile isWordChar with
  | nil => rw [hdw] at hdot; cases hdot
  | cons y ys =>
    rw [hdw] at hdot
    have hy : y = '.' := by simpa using hdot
    subst hy
    have hrv : d.reverse = d.reverse.takeWhile isWordChar ++ '.' :: ys := by
      rw [← hdw]
      exact (List.takeWhile_append_dropWhile isWordChar d.reverse).symm
    refine ⟨ys.reverse, (d.reverse.takeWhile isWordChar).reverse, ?_, ?_, ?_⟩
    · have h2 := congrArg List.reverse hrv
      rw [List.reverse_reverse] at h2
      calc d = (d.reverse.takeWhile isWordChar ++ '.' :: ys).reverse := h2
        _ = ys.reverse ++ '.' :: (d.reverse.takeWhile isWordChar).reverse := by
            simp
    · intro x hx
      exact List.mem_takeWhile_imp (List.mem_reverse.mp hx)
    · rw [List.length_reverse]
      rcases Bool.or_eq_true _ _ |>.mp hlen with h2 | h3
      · exact Or.inl (by simpa using h2)
      · exact Or.inr (by simpa using h3)

theorem finalLabel_append_dot (u w : List Char) (hw : ∀ x ∈ w, ¬ x = '.') :
    finalLabel (u ++ '.' :: w) = w := by
  rw [finalLabel, List.reverse_append, List.reverse_cons]
  have hshape : (w.reverse ++ ['.']) ++ u.reverse = w.reverse ++ '.' :: u.reverse := by
    simp
  rw [hshape, takeWhile_append_cons _ _ _ _
    (fun x hx => by simpa using hw x (List.mem_reverse.mp hx)) (by decide)]
  exact List.reverse_reverse w

/-- C10: the email regex of auth.py line 52 must end in a dot followed
by 2 or 3 word characters, so a (newline-free) address whose final
dot-separated domain label is longer than 3 characters — such as
`user@example.info` — is rejected by sign-up's email validation. -/
theorem C10_email_final_label_at_most_3 (s : List Char) (hnl : ∀ c ∈ s, c ≠ '\n')
    (hlen : 3 < (finalLabel s).length) :
    eregAccepts s = false := by
  by_contra hacc
  rw [Bool.not_eq_false, eregAccepts, stripFinalNewline_of_no_newline s hnl] at hacc
  cases hsp : splitAtFirst '@' s with
  | none => rw [hsp] at hacc; cases hacc
  | some pr =>
    obtain ⟨l, d⟩ := pr
    rw [hsp, Bool.and_eq_true] at hacc
    obtain ⟨u, w, hd, hw, hwlen⟩ := domainPartOk_ends_dot_word d hacc.2
    have hs2 : s = (l ++ '@' :: u) ++ '.' :: w := by
      rw [splitAtFirst_eq '@' s l d hsp, hd]
      simp
    have hfl : finalLabel s = w := by
      rw [hs2]
      exact finalLabel_append_dot _ w (fun x hx => ne_dot_of_isWordChar x (hw x hx))
    rw [hfl] at hlen
    rcases hwlen with h2 | h3
    · rw [h2] at hlen; exact absurd hlen (by decide)
    · rw [h3] at hlen; exact absurd hlen (by decide)

/-- Witness for C10 at a concrete input: `user@example.info` has a
four-character final label and is rejected. -/
theorem C10_witness :
    3 < (finalLabel "user@example.info".data).length ∧
    eregAccepts "user@example.info".data = false :=
  ⟨by decide, C10_email_final_label_at_most_3 "user@example.info".data (by decide) (by decide)⟩
